import Mathlib

/-!
Shallow embedding of the course-catalog web application in `src/app.py`
(Flask CRUD over a single JSON file), together with proofs of the
specified properties of its route handlers.

The persistent state is the course file, modelled as `Option Catalog`
(`none` = the file does not exist, `some l` = the file holds the JSON
array `l`).  Each route handler is embedded as a pure function from the
file state (and its request data) to a `HandlerResult` recording the
HTTP response, the flash messages emitted during the request, and the
file state afterwards.  Tracing, logging and timing code in the source
has no effect on the catalog, the response or the flashes, and is not
modelled.
-/

set_option autoImplicit false

namespace CourseCatalog

/-- A course record as built by `add_course` in `src/app.py` (lines
117-126): exactly the eight string fields of the form dictionary. -/
structure Course where
  code : String
  name : String
  instructor : String
  semester : String
  schedule : String
  classroom : String
  prerequisites : String
  grading : String
deriving DecidableEq, Repr

/-- The catalog: the JSON array stored in `course_catalog.json`. -/
abbrev Catalog := List Course

/-- The course file on disk: `none` when the file does not exist. -/
abbrev FileState := Option Catalog

/-- Embedding of Python `str.strip()`: remove leading and trailing
whitespace characters. -/
def strip (s : String) : String :=
  String.mk (((s.data.dropWhile Char.isWhitespace).reverse.dropWhile Char.isWhitespace).reverse)

/-- `load_courses` (app.py lines 62-67): return `[]` if the file does
not exist, otherwise the parsed array. -/
def load_courses (st : FileState) : Catalog :=
  match st with
  | none => []
  | some courses => courses

/-- `save_courses(data)` (app.py lines 69-74): load the existing
courses, append the new course, and write the file back. -/
def save_courses (st : FileState) (data : Course) : FileState :=
  some (load_courses st ++ [data])

/-- The response a handler returns: either rendering a template
(possibly with a course argument, as in `course_details.html`) or an
HTTP redirect to an endpoint. -/
inductive Response where
  | render (template : String) (courseArg : Option Course)
  | redirect (endpoint : String)
deriving DecidableEq, Repr

/-- One `flash(message, category)` call. -/
structure Flash where
  message : String
  category : String
deriving DecidableEq, Repr

/-- What a request to a route handler produces: the response, the
flash messages emitted, and the course file state afterwards. -/
structure HandlerResult where
  response : Response
  flashes : List Flash
  state : FileState
deriving DecidableEq, Repr

/-- The raw form fields of a POST to `/add_course`, before stripping. -/
structure AddForm where
  code : String
  name : String
  instructor : String
  semester : String
  schedule : String
  classroom : String
  prerequisites : String
  grading : String
deriving DecidableEq, Repr

/-- The course dictionary built from the form (app.py lines 117-126):
every submitted field with leading/trailing whitespace stripped. -/
def form_course (form : AddForm) : Course :=
  { code := strip form.code
    name := strip form.name
    instructor := strip form.instructor
    semester := strip form.semester
    schedule := strip form.schedule
    classroom := strip form.classroom
    prerequisites := strip form.prerequisites
    grading := strip form.grading }

/-- `course[field]` for the field names checked by the validation. -/
def course_field (course : Course) (field : String) : String :=
  if field = "code" then course.code
  else if field = "name" then course.name
  else if field = "instructor" then course.instructor
  else ""

/-- The validation (app.py line 129):
`[field for field in ["code", "name", "instructor"] if not course[field]]`
(a Python string is falsy exactly when it is empty). -/
def missing_fields (course : Course) : List String :=
  (["code", "name", "instructor"]).filter (fun field => course_field course field == "")

/-- An apostrophe, kept out of string literals. -/
def squote : String := String.singleton (Char.ofNat 39)

/-- The flash message of app.py lines 163 and 199:
`f"No course found with code '{code}'."`. -/
def no_course_message (code : String) : String :=
  "No course found with code " ++ squote ++ code ++ squote ++ "."

/-- The POST branch of `add_course` (app.py lines 116-144): build the
stripped course, flash an error and re-render the form when a required
field is missing, otherwise save and redirect to the catalog. -/
def add_course_post (st : FileState) (form : AddForm) : HandlerResult :=
  let course := form_course form
  let missing := missing_fields course
  if missing ≠ [] then
    { response := Response.render "add_course.html" none
      flashes := [{ message := "The following required fields are missing: " ++
                      String.intercalate ", " missing
                    category := "error" }]
      state := st }
  else
    { response := Response.redirect "course_catalog"
      flashes := []
      state := save_courses st course }

/-- `course_details(code)` (app.py lines 152-172): find the first
course whose code matches; on failure flash an error and redirect to
the catalog, on success render the detail template with it. -/
def course_details (st : FileState) (code : String) : HandlerResult :=
  let courses := load_courses st
  match courses.find? (fun course => course.code == code) with
  | none =>
    { response := Response.redirect "course_catalog"
      flashes := [{ message := no_course_message code, category := "error" }]
      state := st }
  | some course =>
    { response := Response.render "course_details.html" (some course)
      flashes := []
      state := st }

/-- `delete_course(code)` (app.py lines 174-206): if a course with the
code exists, rewrite the file with every matching course removed and
flash success; otherwise flash an error; in both cases redirect to the
catalog. -/
def delete_course (st : FileState) (code : String) : HandlerResult :=
  let courses := load_courses st
  match courses.find? (fun course => course.code == code) with
  | some _ =>
    let remaining := courses.filter (fun course => course.code != code)
    { response := Response.redirect "course_catalog"
      flashes := [{ message := "Course with code " ++ code ++ " has been deleted successfully."
                    category := "success" }]
      state := some remaining }
  | none =>
    { response := Response.redirect "course_catalog"
      flashes := [{ message := no_course_message code, category := "error" }]
      state := st }

/-- Observational equality of two handler runs: same response, same
flashes, and the same catalog visible in the resulting file state. -/
def same_behavior (r1 r2 : HandlerResult) : Prop :=
  r1.response = r2.response ∧ r1.flashes = r2.flashes ∧
    load_courses r1.state = load_courses r2.state

/-- A concrete course used in witnesses and counterexamples. -/
def cs101 : Course :=
  { code := "CS101", name := "Intro to Programming", instructor := "Prof. A"
    semester := "Fall", schedule := "MWF 9-10", classroom := "L1"
    prerequisites := "None", grading := "Relative" }

/-- A second concrete course sharing the code of `cs101`. -/
def cs101b : Course :=
  { code := "CS101", name := "Intro to Programming II", instructor := "Prof. B"
    semester := "Spring", schedule := "TT 2-3", classroom := "L2"
    prerequisites := "None", grading := "Absolute" }

/-- C2: for every catalog file state and every course record,
`save_courses` produces a catalog whose length is exactly one greater
than before. -/
theorem save_courses_adds_one (st : FileState) (data : Course) :
    (load_courses (save_courses st data)).length = (load_courses st).length + 1 := by
  simp [load_courses, save_courses]

/-- Filtering by the negation of `p` keeps `length - countP p` elements. -/
theorem length_filter_not (p : Course → Bool) (l : List Course) :
    (l.filter (fun a => !p a)).length = l.length - l.countP p := by
  induction l with
  | nil => simp
  | cons a t ih =>
    have hle := List.countP_le_length (p := p) (l := t)
    by_cases h : p a = true
    · simp [List.filter, List.countP_cons, h, ih]
    · simp only [Bool.not_eq_true] at h
      simp [List.filter, List.countP_cons, h, ih]
      omega

/-- After `delete_course`, the stored catalog is exactly the original
filtered on codes differing from the deleted one (in both the found
and the not-found branch). -/
theorem delete_course_state_eq_filter (st : FileState) (code : String) :
    load_courses (delete_course st code).state
      = (load_courses st).filter (fun course => course.code != code) := by
  cases hfind : (load_courses st).find? (fun course => course.code == code) with
  | none =>
    have hall := List.find?_eq_none.mp hfind
    simp only [delete_course, hfind]
    symm
    apply List.filter_eq_self.mpr
    intro a ha
    have := hall a ha
    simp only [bne, Bool.not_eq_true]
    simpa using this
  | some c =>
    simp only [delete_course, hfind]
    rfl

/-- C7: add is list-append (the new course goes at the end, every
existing entry is unchanged and keeps its position) and delete is a
linear-scan filter (the stored catalog is exactly the subsequence of
entries whose code differs from the deleted code, a sublist of the
original, so no entry is ever modified in place). -/
theorem add_is_append_delete_is_filter (st : FileState) (data : Course) (code : String) :
    load_courses (save_courses st data) = load_courses st ++ [data]
    ∧ load_courses (delete_course st code).state
        = (load_courses st).filter (fun course => course.code != code)
    ∧ List.Sublist (load_courses (delete_course st code).state) (load_courses st) := by
  refine ⟨rfl, delete_course_state_eq_filter st code, ?_⟩
  rw [delete_course_state_eq_filter st code]
  exact List.filter_sublist _

/-- C8: when the course file does not exist, `load_courses` returns the
empty list, and each route handler behaves exactly as on a present but
empty catalog file (same response, same flashes, same visible catalog). -/
theorem missing_file_treated_as_empty :
    load_courses none = ([] : Catalog)
    ∧ (∀ code : String, same_behavior (course_details none code) (course_details (some []) code))
    ∧ (∀ code : String, same_behavior (delete_course none code) (delete_course (some []) code))
    ∧ (∀ form : AddForm, same_behavior (add_course_post none form) (add_course_post (some []) form)) := by
  refine ⟨rfl, ?_, ?_, ?_⟩
  · intro code
    simp [same_behavior, course_details, load_courses]
  · intro code
    simp [same_behavior, delete_course, load_courses]
  · intro form
    by_cases hm : missing_fields (form_course form) = []
    · simp [same_behavior, add_course_post, hm, save_courses, load_courses]
    · simp [same_behavior, add_course_post, hm, load_courses]

/-- C1 counterexample: on a catalog holding two courses that share the
code CS101, deleting CS101 removes both entries, so the resulting
length is not one less than the original. -/
theorem delete_removes_two_on_duplicate_codes :
    (∃ e ∈ load_courses (some [cs101, cs101b]), e.code = "CS101")
    ∧ (load_courses (delete_course (some [cs101, cs101b]) "CS101").state).length
        ≠ (load_courses (some [cs101, cs101b])).length - 1 := by
  decide

/-- C1 amended: deleting a code that occurs in the catalog removes
exactly the entries carrying that code: the resulting length is the
original length minus the number of matching entries (at least one),
and no entry with the deleted code remains.  When the code occurs
exactly once this is a decrease by one. -/
theorem delete_course_removes_all_matching (st : FileState) (code : String)
    (h : ∃ e ∈ load_courses st, e.code = code) :
    1 ≤ (load_courses st).countP (fun e => e.code == code)
    ∧ (load_courses (delete_course st code).state).length
        = (load_courses st).length - (load_courses st).countP (fun e => e.code == code)
    ∧ ∀ e ∈ load_courses (delete_course st code).state, e.code ≠ code := by
  obtain ⟨e, he, hcode⟩ := h
  refine ⟨?_, ?_, ?_⟩
  · exact List.countP_pos_iff.mpr ⟨e, he, by simp [hcode]⟩
  · rw [delete_course_state_eq_filter st code]
    have hfun : (fun course : Course => course.code != code)
        = (fun course : Course => !(course.code == code)) := by
      funext a; simp [bne]
    rw [hfun]
    exact length_filter_not _ _
  · intro x hx
    rw [delete_course_state_eq_filter st code] at hx
    have := (List.mem_filter.mp hx).2
    simpa using this

/-- C1 amended, witnessed at a singleton catalog: deleting the one
course with code CS101 leaves the length at `1 - 1`. -/
theorem delete_course_removes_all_matching_witness :
    1 ≤ (load_courses (some [cs101])).countP (fun e => e.code == "CS101")
    ∧ (load_courses (delete_course (some [cs101]) "CS101").state).length
        = (load_courses (some [cs101])).length
            - (load_courses (some [cs101])).countP (fun e => e.code == "CS101")
    ∧ ∀ e ∈ load_courses (delete_course (some [cs101]) "CS101").state, e.code ≠ "CS101" :=
  delete_course_removes_all_matching (some [cs101]) "CS101" (by decide)

/-- If no entry of the catalog carries the code, the linear scan
`find?` fails. -/
theorem find?_code_eq_none (st : FileState) (code : String)
    (h : ∀ e ∈ load_courses st, e.code ≠ code) :
    (load_courses st).find? (fun course => course.code == code) = none :=
  List.find?_eq_none.mpr (fun x hx => by simpa using h x hx)

/-- C3: on a code matching no catalog entry, `course_details` redirects
to the catalog page with an error flash, leaves the file alone, and
renders no detail view. -/
theorem course_details_not_found (st : FileState) (code : String)
    (h : ∀ e ∈ load_courses st, e.code ≠ code) :
    course_details st code
      = { response := Response.redirect "course_catalog"
          flashes := [{ message := no_course_message code, category := "error" }]
          state := st }
    ∧ ∀ (t : String) (c : Option Course),
        (course_details st code).response ≠ Response.render t c := by
  have hfind := find?_code_eq_none st code h
  constructor
  · simp only [course_details, hfind]
  · intro t c
    simp [course_details, hfind]

/-- C3 witnessed: looking up EE999 in a catalog holding only CS101. -/
theorem course_details_not_found_witness :
    (course_details (some [cs101]) "EE999"
      = { response := Response.redirect "course_catalog"
          flashes := [{ message := no_course_message "EE999", category := "error" }]
          state := some [cs101] }
    ∧ ∀ (t : String) (c : Option Course),
        (course_details (some [cs101]) "EE999").response ≠ Response.render t c) :=
  course_details_not_found (some [cs101]) "EE999" (by decide)

/-- C5: on a code matching no catalog entry, `delete_course` flashes an
error, redirects to the catalog page, and leaves the file state
unchanged. -/
theorem delete_course_not_found (st : FileState) (code : String)
    (h : ∀ e ∈ load_courses st, e.code ≠ code) :
    delete_course st code
      = { response := Response.redirect "course_catalog"
          flashes := [{ message := no_course_message code, category := "error" }]
          state := st } := by
  have hfind := find?_code_eq_none st code h
  simp only [delete_course, hfind]

/-- C5 witnessed: deleting EE404 from a catalog holding only CS101. -/
theorem delete_course_not_found_witness :
    delete_course (some [cs101]) "EE404"
      = { response := Response.redirect "course_catalog"
          flashes := [{ message := no_course_message "EE404", category := "error" }]
          state := some [cs101] } :=
  delete_course_not_found (some [cs101]) "EE404" (by decide)

/-- C4: when the code, name or instructor form field is empty after
stripping, the POST add handler emits an error flash and leaves the
course file untouched. -/
theorem add_course_missing_required (st : FileState) (form : AddForm)
    (h : strip form.code = "" ∨ strip form.name = "" ∨ strip form.instructor = "") :
    (∃ f ∈ (add_course_post st form).flashes, f.category = "error")
    ∧ (add_course_post st form).state = st := by
  have hmiss : missing_fields (form_course form) ≠ [] := by
    intro hnil
    simp only [missing_fields] at hnil
    rw [List.filter_eq_nil_iff] at hnil
    rcases h with h | h | h
    · exact hnil "code" (by simp) (by simp [course_field, form_course, h])
    · exact hnil "name" (by simp) (by simp [course_field, form_course, h])
    · exact hnil "instructor" (by simp) (by simp [course_field, form_course, h])
  constructor
  · simp only [add_course_post, if_pos hmiss]
    exact ⟨_, List.mem_singleton.mpr rfl, rfl⟩
  · simp only [add_course_post, if_pos hmiss]

/-- A form with every field blank. -/
def blank_form : AddForm :=
  { code := "", name := "", instructor := "", semester := ""
    schedule := "", classroom := "", prerequisites := "", grading := "" }

/-- C4 witnessed: submitting the all-blank form to an empty catalog. -/
theorem add_course_missing_required_witness :
    (∃ f ∈ (add_course_post (some []) blank_form).flashes, f.category = "error")
    ∧ (add_course_post (some []) blank_form).state = some [] :=
  add_course_missing_required (some []) blank_form (Or.inl rfl)

/-- When the stripped code, name and instructor are all nonempty, the
validation of app.py line 129 reports no missing field. -/
theorem missing_fields_eq_nil (form : AddForm)
    (hc : strip form.code ≠ "") (hn : strip form.name ≠ "") (hi : strip form.instructor ≠ "") :
    missing_fields (form_course form) = [] := by
  have h1 : (strip form.code == "") = false := beq_eq_false_iff_ne.mpr hc
  have h2 : (strip form.name == "") = false := beq_eq_false_iff_ne.mpr hn
  have h3 : (strip form.instructor == "") = false := beq_eq_false_iff_ne.mpr hi
  simp [missing_fields, course_field, form_course, List.filter, h1, h2, h3]

/-- A catalog entry whose code is the empty string (the course file is
plain JSON, so nothing prevents such an entry from being stored). -/
def ghost : Course :=
  { code := "", name := "Ghost Course", instructor := "Nobody", semester := ""
    schedule := "", classroom := "", prerequisites := "", grading := "" }

/-- A form whose code field equals the code of `ghost` (empty) but
whose name and instructor are nonempty. -/
def ghost_form : AddForm :=
  { code := "", name := "Ghost Course", instructor := "Nobody", semester := ""
    schedule := "", classroom := "", prerequisites := "", grading := "" }

/-- C6 counterexample: with the duplicated code `""`, the add is
rejected by the required-field validation, so it neither redirects nor
appends - the claim fails for the empty code. -/
theorem add_duplicate_empty_code_fails :
    (∃ e ∈ load_courses (some [ghost]), e.code = strip ghost_form.code)
    ∧ strip ghost_form.name ≠ "" ∧ strip ghost_form.instructor ≠ ""
    ∧ (add_course_post (some [ghost]) ghost_form).state
        ≠ save_courses (some [ghost]) (form_course ghost_form)
    ∧ (add_course_post (some [ghost]) ghost_form).response
        ≠ Response.redirect "course_catalog" := by
  decide

/-- C6 amended: for every nonempty code `c` already present in the
catalog, adding a form whose stripped code is `c` (with nonempty name
and instructor) succeeds: it redirects to the catalog, appends the
stripped course, and the stored catalog then holds at least two entries
with code `c`. -/
theorem add_duplicate_code_appends (st : FileState) (form : AddForm) (c : String)
    (hc : strip form.code = c) (hcne : c ≠ "")
    (hmem : ∃ e ∈ load_courses st, e.code = c)
    (hn : strip form.name ≠ "") (hi : strip form.instructor ≠ "") :
    (add_course_post st form).response = Response.redirect "course_catalog"
    ∧ (add_course_post st form).state = save_courses st (form_course form)
    ∧ 2 ≤ (load_courses (add_course_post st form).state).countP (fun e => e.code == c) := by
  have hmiss : missing_fields (form_course form) = [] :=
    missing_fields_eq_nil form (by rw [hc]; exact hcne) hn hi
  have hcond : ¬ (missing_fields (form_course form) ≠ []) := by
    rw [hmiss]; simp
  have hstate : (add_course_post st form).state = save_courses st (form_course form) := by
    simp only [add_course_post, if_neg hcond]
  refine ⟨?_, hstate, ?_⟩
  · simp only [add_course_post, if_neg hcond]
  · rw [hstate]
    have hload : load_courses (save_courses st (form_course form))
        = load_courses st ++ [form_course form] := rfl
    rw [hload, List.countP_append]
    have hone : List.countP (fun e : Course => e.code == c) [form_course form] = 1 := by
      simp [form_course, hc]
    have hpos : 1 ≤ List.countP (fun e : Course => e.code == c) (load_courses st) := by
      obtain ⟨e, he, hec⟩ := hmem
      exact List.countP_pos_iff.mpr ⟨e, he, by simp [hec]⟩
    omega

/-- A form that reuses the code CS101 of `cs101`. -/
def dup_form : AddForm :=
  { code := "CS101", name := "Advanced Programming", instructor := "Prof. C"
    semester := "Fall", schedule := "", classroom := "", prerequisites := ""
    grading := "" }

/-- C6 amended, witnessed: adding a second CS101 to a catalog already
holding CS101 yields two entries with that code. -/
theorem add_duplicate_code_appends_witness :
    (add_course_post (some [cs101]) dup_form).response = Response.redirect "course_catalog"
    ∧ (add_course_post (some [cs101]) dup_form).state
        = save_courses (some [cs101]) (form_course dup_form)
    ∧ 2 ≤ (load_courses (add_course_post (some [cs101]) dup_form).state).countP
            (fun e => e.code == "CS101") :=
  add_duplicate_code_appends (some [cs101]) dup_form "CS101"
    (by decide) (by decide) (by decide) (by decide) (by decide)

/-- C9: a successful add appends exactly the record with the eight
fields code, name, instructor, semester, schedule, classroom,
prerequisites, grading, each the submitted form value with surrounding
whitespace stripped. -/
theorem add_course_stores_stripped_record (st : FileState) (form : AddForm)
    (hc : strip form.code ≠ "") (hn : strip form.name ≠ "") (hi : strip form.instructor ≠ "") :
    load_courses (add_course_post st form).state
      = load_courses st ++
          [{ code := strip form.code, name := strip form.name
             instructor := strip form.instructor, semester := strip form.semester
             schedule := strip form.schedule, classroom := strip form.classroom
             prerequisites := strip form.prerequisites, grading := strip form.grading }] := by
  have hmiss : missing_fields (form_course form) = [] := missing_fields_eq_nil form hc hn hi
  have hcond : ¬ (missing_fields (form_course form) ≠ []) := by
    rw [hmiss]; simp
  simp only [add_course_post, if_neg hcond]
  rfl

/-- A form with whitespace padding around its values. -/
def padded_form : AddForm :=
  { code := "  MA202 ", name := " Linear Algebra ", instructor := " Prof. D"
    semester := " Spring ", schedule := "", classroom := "", prerequisites := " MA101 "
    grading := " Absolute" }

/-- C9 witnessed: adding the padded form to an empty catalog stores the
stripped record. -/
theorem add_course_stores_stripped_record_witness :
    load_courses (add_course_post (some []) padded_form).state
      = load_courses (some []) ++
          [{ code := strip padded_form.code, name := strip padded_form.name
             instructor := strip padded_form.instructor, semester := strip padded_form.semester
             schedule := strip padded_form.schedule, classroom := strip padded_form.classroom
             prerequisites := strip padded_form.prerequisites
             grading := strip padded_form.grading }] :=
  add_course_stores_stripped_record (some []) padded_form (by decide) (by decide) (by decide)

/-- `find?` on a list that starts with failures returns the first
element satisfying the predicate. -/
theorem find?_skips_nonmatching (p : Course → Bool) (l1 l2 : List Course) (e : Course)
    (h1 : ∀ x ∈ l1, p x = false) (he : p e = true) :
    (l1 ++ e :: l2).find? p = some e := by
  induction l1 with
  | nil => simp [List.find?_cons_of_pos, he]
  | cons a t ih =>
    have ha : p a = false := h1 a (by simp)
    rw [List.cons_append, List.find?_cons_of_neg _ (by simp [ha])]
    exact ih (fun x hx => h1 x (by simp [hx]))

/-- C10: when the catalog holds more than one entry with the requested
code, `course_details` renders the first matching entry in catalog
order (here: the entry `e` preceded only by non-matching entries). -/
theorem course_details_renders_first_match (st : FileState) (code : String)
    (l1 l2 : Catalog) (e : Course)
    (hsplit : load_courses st = l1 ++ e :: l2)
    (he : e.code = code)
    (hfirst : ∀ x ∈ l1, x.code ≠ code)
    (hdup : 1 < (load_courses st).countP (fun x => x.code == code)) :
    course_details st code
      = { response := Response.render "course_details.html" (some e)
          flashes := []
          state := st } := by
  have hfind : (load_courses st).find? (fun course => course.code == code) = some e := by
    rw [hsplit]
    exact find?_skips_nonmatching _ _ _ _
      (fun x hx => beq_eq_false_iff_ne.mpr (hfirst x hx)) (by simp [he])
  simp only [course_details, hfind]

/-- C10 witnessed: with two CS101 entries, the detail page shows the
first one. -/
theorem course_details_renders_first_match_witness :
    course_details (some [cs101, cs101b]) "CS101"
      = { response := Response.render "course_details.html" (some cs101)
          flashes := []
          state := some [cs101, cs101b] } :=
  course_details_renders_first_match (some [cs101, cs101b]) "CS101" [] [cs101b] cs101
    rfl rfl (by decide) (by decide)

end CourseCatalog
